import Mathlib

/-!
Verification development for the semantic-search subsystem of `ai_note_app`.

The Python source under `src/core/` is embedded shallowly:

* `search_service.py` (`SearchService`) — the vector index wrapper.  The
  `faiss` library objects it drives (`IndexIDMap` over `IndexFlatIP`) are
  modelled as a list of `(id, vector)` entries kept in insertion order:
  `add_with_ids` appends (duplicate ids are allowed by faiss), `remove_ids`
  drops every entry with a matching id, and `search` scores every entry by
  inner product and returns the top `k` in non-increasing score order,
  padding unfilled slots with id `-1` (faiss fills the label array with `-1`
  and the distance array with `-FLT_MAX` when fewer than `k` entries exist).
  Ties keep the flat index's storage order, which is insertion order.
  Dimension checks that faiss performs inside `add_with_ids` / `search`
  (raising a Python exception) are modelled as an `Except` error.
* IEEE-754 float arithmetic is modelled with real numbers, so the
  `±epsilon` tolerances of the specification become exact equalities.
* `database_service.py` (`DatabaseService`) — the sqlite store is modelled
  as the list of its rows; `get_item` is the `WHERE id = ?` lookup and
  `get_all_items` returns the rows (the `ORDER BY ts DESC` ordering is
  irrelevant to the verified properties and is abstracted as stored order).
* `ai_service.py` (`OllamaProvider.generate_embeddings`,
  `AIService.generate_embeddings`) — the HTTP replies of the embedding
  endpoint are a parameter (`OllamaReply`); the provider's fallback logic
  (dummy zero embeddings on failures) is embedded faithfully.
* `agent_service.py` (`NotesAgentService.create_item`) — the state it
  threads is the pair of the database rows and the search service; the
  text-enhancement step is a parameter (it is plain string plumbing with no
  failure path relevant to the verified claims).
-/

namespace AiNote

/-- Inner product of two rows, as `numpy` computes it for equal-length
rows (`zipWith (*)` then sum). -/
def dot (u v : List ℝ) : ℝ := (List.zipWith (fun a b => a * b) u v).sum

/-- Sum of squares of a row: the square of its L2 norm. -/
def sumSq (v : List ℝ) : ℝ := dot v v

/-- L2 norm of a row (`np.linalg.norm` on one row). -/
noncomputable def l2norm (v : List ℝ) : ℝ := Real.sqrt (sumSq v)

/-- One row of `SearchService._normalize_vectors`: divide by the row norm,
with the norm replaced by 1 when it is 0 (`norms[norms == 0] = 1`). -/
noncomputable def normalize (v : List ℝ) : List ℝ :=
  let n := l2norm v
  let d := if n = 0 then 1 else n
  v.map (fun x => x / d)

/-- `SearchService._normalize_vectors`: row-wise normalization of a matrix. -/
noncomputable def normalize_vectors (vs : List (List ℝ)) : List (List ℝ) :=
  vs.map normalize

/-- The one error kind the faiss calls used by `search_service.py` raise:
a vector whose length differs from the index dimension. -/
inductive FaissError
  | dimensionMismatch
deriving DecidableEq

/-- Model of `faiss.IndexIDMap(faiss.IndexFlatIP(d))`: the dimension and
the stored `(id, vector)` entries in insertion order. -/
structure FaissIndex where
  d : ℕ
  entries : List (ℤ × List ℝ)

/-- `index.ntotal`: number of stored entries. -/
def FaissIndex.ntotal (idx : FaissIndex) : ℕ := idx.entries.length

/-- `index.add_with_ids(vecs, ids)`: faiss appends the entries (it never
deduplicates ids) after asserting that the batch is rectangular with row
length `d` and that there are as many ids as rows; a violated assertion is
a raised exception, modelled as `Except.error`. -/
def FaissIndex.add_with_ids (idx : FaissIndex) (vecs : List (List ℝ)) (ids : List ℤ) :
    Except FaissError FaissIndex :=
  if vecs.length = ids.length ∧ ∀ v ∈ vecs, v.length = idx.d then
    .ok { idx with entries := idx.entries ++ ids.zip vecs }
  else .error .dimensionMismatch

/-- `index.remove_ids(ids)`: drops every entry whose id is listed; absent
ids remove nothing and raise nothing. -/
def FaissIndex.remove_ids (idx : FaissIndex) (ids : List ℤ) : FaissIndex :=
  { idx with entries := idx.entries.filter (fun e => decide (e.1 ∉ ids)) }

/-- The distance value faiss reports for unfilled result slots of an
inner-product index (`-FLT_MAX`). -/
def padScore : ℝ := -(2 ^ 128)

/-- Comparison used to rank scored entries: non-increasing score, entries
with equal score keeping their storage order. -/
def scoreGE (a b : ℝ × ℤ) : Prop := b.1 ≤ a.1

noncomputable instance : DecidableRel scoreGE :=
  fun a b => inferInstanceAs (Decidable (b.1 ≤ a.1))

instance : IsTotal (ℝ × ℤ) scoreGE := ⟨fun a b => le_total b.1 a.1⟩

instance : IsTrans (ℝ × ℤ) scoreGE := ⟨fun _ _ _ hab hbc => le_trans hbc hab⟩

/-- `index.search(q, k)` for one query row: inner product against every
stored entry, the results ranked by non-increasing score (insertion sort is
stable, matching the flat index's storage order on ties), truncated or
padded with `(-FLT_MAX, -1)` to exactly `k` slots.  A query row of the
wrong length fails the faiss dimension assertion. -/
noncomputable def FaissIndex.search (idx : FaissIndex) (q : List ℝ) (k : ℕ) :
    Except FaissError (List (ℝ × ℤ)) :=
  if q.length = idx.d then
    let scored := idx.entries.map (fun e => (dot q e.2, e.1))
    let ranked := List.insertionSort scoreGE scored
    .ok (ranked.take k ++ List.replicate (k - ranked.length) (padScore, -1))
  else .error .dimensionMismatch

/-- `ItemType` of `models.py`. -/
inductive ItemType
  | note
  | task
  | resource
deriving DecidableEq

/-- `NoteItem` of `models.py`. -/
structure NoteItem where
  id : Option ℤ
  timestamp : ℝ
  raw_content : String
  enhanced_content : String
  item_type : ItemType
  is_completed : Bool

/-- `SearchResult` of `models.py`. -/
structure SearchResult where
  item : NoteItem
  similarity_score : ℝ

/-- `DatabaseService` of `database_service.py`, modelled as its rows. -/
structure DatabaseService where
  rows : List NoteItem

/-- `DatabaseService.get_item`: the `SELECT ... WHERE id = ?` lookup. -/
def DatabaseService.get_item (db : DatabaseService) (item_id : ℤ) : Option NoteItem :=
  db.rows.find? (fun it => it.id = some item_id)

/-- `DatabaseService.get_all_items` with its default arguments (no type
filter, completed included): all rows. -/
def DatabaseService.get_all_items (db : DatabaseService) : List NoteItem := db.rows

/-- `SearchService` of `search_service.py`: configured dimension and the
faiss index (the persisting path is a durability side channel with no
effect on the in-memory state and is not part of the state here). -/
structure SearchService where
  embed_dim : ℕ
  index : FaissIndex

/-- State of the persisted index file that `_load_or_create_index` reads. -/
inductive IndexFile
  | missing
  | corrupt
  | good (idx : FaissIndex)

/-- A fresh `faiss.IndexIDMap(faiss.IndexFlatIP(d))`. -/
def emptyIndex (d : ℕ) : FaissIndex := ⟨d, []⟩

/-- `SearchService._load_or_create_index`: a readable file yields its
index; a missing file, or any `read_index` failure (caught by the bare
`except: pass`), yields a fresh empty index.  Total: no failure escapes. -/
def load_or_create_index (embed_dim : ℕ) (file : IndexFile) : FaissIndex :=
  match file with
  | .good idx => idx
  | .missing => emptyIndex embed_dim
  | .corrupt => emptyIndex embed_dim

/-- `SearchService.__init__`: store the dimension and load the index. -/
def SearchService.construct (embed_dim : ℕ) (file : IndexFile) : SearchService :=
  ⟨embed_dim, load_or_create_index embed_dim file⟩

/-- `SearchService.add_item`: normalize the one-row batch and
`add_with_ids` it under the given id (then `_save_index`, a durability
side effect outside the modelled state). -/
noncomputable def SearchService.add_item (s : SearchService) (item_id : ℤ)
    (embedding : List ℝ) : Except FaissError SearchService :=
  match s.index.add_with_ids (normalize_vectors [embedding]) [item_id] with
  | .ok idx => .ok { s with index := idx }
  | .error e => .error e

/-- `SearchService.remove_item`: `remove_ids` on the one id; the
surrounding `try/except` makes the operation total. -/
def SearchService.remove_item (s : SearchService) (item_id : ℤ) : SearchService :=
  { s with index := s.index.remove_ids [item_id] }

/-- The loop body of `SearchService.search_similar`: a hit with a non-`-1`
id and score at least the threshold is hydrated through `db.get_item`
(yielding nothing when the record is absent); other hits yield nothing. -/
noncomputable def hydrate (db : DatabaseService) (similarity_threshold : ℝ)
    (h : ℝ × ℤ) : Option SearchResult :=
  if h.2 ≠ -1 ∧ similarity_threshold ≤ h.1 then
    (db.get_item h.2).map (fun item => ⟨item, h.1⟩)
  else none

/-- `SearchService.search_similar`: empty index short-circuits to `[]`
before any dimension check; otherwise the query row is normalized, the
index searched for `top_k + 1` slots, and the hits are filtered and
hydrated by the loop body `hydrate`. -/
noncomputable def SearchService.search_similar (s : SearchService)
    (query_embedding : List ℝ) (db : DatabaseService) (top_k : ℕ)
    (similarity_threshold : ℝ) : Except FaissError (List SearchResult) :=
  if s.index.ntotal = 0 then .ok []
  else
    match s.index.search (normalize query_embedding) (top_k + 1) with
    | .error e => .error e
    | .ok hits => .ok (hits.filterMap (hydrate db similarity_threshold))

/-- The statistics dictionary `SearchService.get_stats` returns. -/
structure IndexStats where
  total_items : ℕ
  dimension : ℕ
  index_exists : Bool

/-- `SearchService.get_stats`: entry count, configured dimension, and
whether the index file exists on disk (a filesystem fact, passed in). -/
def SearchService.get_stats (s : SearchService) (file_exists : Bool) : IndexStats :=
  ⟨s.index.ntotal, s.embed_dim, file_exists⟩

/-- Sequences the `Optional[int]` ids of the fetched rows the way
`np.array(item_ids, dtype="int64")` does: any `None` id raises (caught by
`rebuild_index`'s `except`), which is the `none` outcome. -/
def seqOption : List (Option ℤ) → Option (List ℤ)
  | [] => some []
  | none :: _ => none
  | some i :: rest => (seqOption rest).map (fun l => i :: l)

/-- `SearchService.rebuild_index`: replace the index with a fresh empty
one, fetch all rows, and (unless there are none) re-embed their enhanced
content and `add_with_ids` the normalized batch under the row ids.  Every
failure inside the `try` (provider exception, ragged batch, dimension or
count mismatch, a `None` id) is caught and leaves the fresh empty index in
place. -/
noncomputable def SearchService.rebuild_index (s : SearchService) (db : DatabaseService)
    (generate_embeddings : List String → Except Unit (List (List ℝ))) : SearchService :=
  let fresh : SearchService := { s with index := emptyIndex s.embed_dim }
  let items := db.get_all_items
  if items.isEmpty then fresh
  else
    let texts := items.map (fun it => it.enhanced_content)
    let item_ids := items.map (fun it => it.id)
    match generate_embeddings texts with
    | .error _ => fresh
    | .ok embeddings =>
        match seqOption item_ids with
        | none => fresh
        | some ids =>
            match (emptyIndex s.embed_dim).add_with_ids (normalize_vectors embeddings) ids with
            | .ok idx => { s with index := idx }
            | .error _ => fresh

/-- `OllamaProvider` state relevant to `generate_embeddings`: whether
`configure()` succeeded. -/
structure OllamaProvider where
  configured : Bool

/-- Outcome of the one `requests.post` to the Ollama embeddings endpoint
for one prompt: the request raised (connection refused, timeout), the
status was not 200, the JSON carried no non-empty embedding, or an
embedding came back. -/
inductive OllamaReply
  | raises
  | badStatus
  | emptyEmbedding
  | embedding (e : List ℝ)

/-- Whether the reply is a raised exception. -/
def OllamaReply.isRaises : OllamaReply → Bool
  | .raises => true
  | _ => false

/-- The dummy fallback embedding `[0.0] * 768`. -/
def dummyEmbedding : List ℝ := List.replicate 768 0

/-- `OllamaProvider.generate_embeddings`: an unconfigured provider returns
`[]`; a raised request aborts the loop and the `except` branch substitutes
a dummy zero embedding for every text; per-text failures (bad status,
missing or empty embedding) substitute the dummy for that text.  The
network behaviour is the parameter `net`.  Never raises. -/
def ollama_generate_embeddings (p : OllamaProvider) (net : String → OllamaReply)
    (texts : List String) : List (List ℝ) :=
  if p.configured = false then []
  else if texts.any (fun t => (net t).isRaises) then
    texts.map (fun _ => dummyEmbedding)
  else
    texts.map (fun t =>
      match net t with
      | .embedding e => if e.isEmpty then dummyEmbedding else e
      | _ => dummyEmbedding)

/-- `AIService.generate_embeddings`: `[]` when no provider is configured,
otherwise the provider's result.  The claim's sources name the Ollama
provider, so that is the provider modelled (the Gemini provider returns
`[]` both when unconfigured and on exceptions, same shape of outcome). -/
def ai_generate_embeddings (provider : Option OllamaProvider)
    (net : String → OllamaReply) (texts : List String) : List (List ℝ) :=
  match provider with
  | none => []
  | some p => ollama_generate_embeddings p net texts

/-- The id sqlite `AUTOINCREMENT` assigns to the next inserted row,
modelled as one more than the largest id present (1 on an empty table). -/
def DatabaseService.next_id (db : DatabaseService) : ℤ :=
  db.rows.foldr (fun it m => max (it.id.getD 0) m) 0 + 1

/-- `DatabaseService.create_item`: INSERT the row; returns the updated
store and the `lastrowid`. -/
def DatabaseService.create_item (db : DatabaseService) (item : NoteItem) :
    DatabaseService × ℤ :=
  (⟨db.rows ++ [{ item with id := some db.next_id }]⟩, db.next_id)

/-- `NotesAgentService.create_item`: enhance the content (the parameter
`enhance` stands for `_extract_tags` plus `ai_service.enhance_text`, and
`item_type` for `_determine_item_type` — pure string plumbing with no
failure path), generate the embedding batch for the one enhanced text and
take element `[0]` (an empty batch raises `IndexError`, caught by the
outer `except`, leaving both stores untouched), create the database row,
then add it to the search index (a failure there is also caught, after the
row was created).  Returns the threaded `(db, search)` state and the
`AgentResponse.success` flag. -/
noncomputable def agent_create_item (db : DatabaseService) (search : SearchService)
    (provider : Option OllamaProvider) (net : String → OllamaReply)
    (enhance : String → String) (item_type : ItemType) (now : ℝ)
    (content : String) : (DatabaseService × SearchService) × Bool :=
  let enhanced := enhance content
  match (ai_generate_embeddings provider net [enhanced]).head? with
  | none => ((db, search), false)
  | some embedding =>
      let item : NoteItem := ⟨none, now, content, enhanced, item_type, false⟩
      let db' := (db.create_item item).1
      let item_id := (db.create_item item).2
      match search.add_item item_id embedding with
      | .ok s' => ((db', s'), true)
      | .error _ => ((db', search), false)

/-- The normalization invariant of the specification: every stored
embedding has L2 norm 1, except all-zero vectors (which normalization
leaves unchanged). -/
def NormInvariant (s : SearchService) : Prop :=
  ∀ e ∈ s.index.entries, l2norm e.2 = 1 ∨ ∀ x ∈ e.2, x = 0

/-- A concrete stored row with the given id, for the example states. -/
def itemN (i : ℤ) : NoteItem := ⟨some i, 0, "raw", "enhanced", ItemType.note, false⟩

/-- A concrete store holding rows with ids 1, 2, 3, 5. -/
def exampleDb : DatabaseService := ⟨[itemN 1, itemN 2, itemN 3, itemN 5]⟩

/-- A dimension-1 index state holding three unit entries with ids 1, 2, 3. -/
def svcThree : SearchService := ⟨1, ⟨1, [(1, [1]), (2, [1]), (3, [1])]⟩⟩

/-- A dimension-1 index state holding unit entries inserted as id 5 then
id 3. -/
def svcFiveThree : SearchService := ⟨1, ⟨1, [(5, [1]), (3, [1])]⟩⟩

/-- A dimension-1 index state already holding one entry under id 1. -/
def svcDup : SearchService := ⟨1, ⟨1, [(1, [1])]⟩⟩

/-- A fresh dimension-1 service. -/
def svcOne : SearchService := SearchService.construct 1 .missing

/-- A fresh dimension-2 service. -/
def svcTwo : SearchService := SearchService.construct 2 .missing

/-- A fresh dimension-768 service. -/
def svc768 : SearchService := SearchService.construct 768 .missing

/-! Arithmetic facts about the normalization step. -/

theorem zipWith_mul_self (v : List ℝ) :
    List.zipWith (fun a b => a * b) v v = v.map (fun x => x * x) := by
  induction v with
  | nil => rfl
  | cons x xs ih => simp [ih]

theorem sumSq_eq (v : List ℝ) : sumSq v = (v.map (fun x => x * x)).sum := by
  rw [sumSq, dot, zipWith_mul_self]

theorem sumSq_nonneg (v : List ℝ) : 0 ≤ sumSq v := by
  rw [sumSq_eq]
  exact List.sum_nonneg (fun x hx => by
    obtain ⟨y, _, rfl⟩ := List.mem_map.1 hx
    exact mul_self_nonneg y)

theorem sumSq_eq_zero_iff (v : List ℝ) : sumSq v = 0 ↔ ∀ x ∈ v, x = 0 := by
  rw [sumSq_eq]
  induction v with
  | nil => simp
  | cons x xs ih =>
      simp only [List.map_cons, List.sum_cons, List.mem_cons]
      rw [add_eq_zero_iff_of_nonneg (mul_self_nonneg x)
        (List.sum_nonneg (fun y hy => by
          obtain ⟨z, _, rfl⟩ := List.mem_map.1 hy
          exact mul_self_nonneg z))]
      rw [mul_self_eq_zero, ih]
      constructor
      · rintro ⟨h1, h2⟩ y (rfl | hy)
        · exact h1
        · exact h2 y hy
      · intro h
        exact ⟨h x (Or.inl rfl), fun y hy => h y (Or.inr hy)⟩

theorem sumSq_map_div (v : List ℝ) (c : ℝ) :
    sumSq (v.map (fun x => x / c)) = sumSq v / (c * c) := by
  rw [sumSq_eq, sumSq_eq, List.map_map]
  induction v with
  | nil => simp
  | cons x xs ih =>
      simp only [List.map_cons, List.sum_cons, Function.comp]
      rw [add_div, ← ih, div_mul_div_comm]

theorem l2norm_eq_zero_iff (v : List ℝ) : l2norm v = 0 ↔ ∀ x ∈ v, x = 0 := by
  rw [l2norm, Real.sqrt_eq_zero (sumSq_nonneg v), sumSq_eq_zero_iff]

theorem normalize_length (v : List ℝ) : (normalize v).length = v.length := by
  simp [normalize]

theorem normalize_of_zero {v : List ℝ} (h : ∀ x ∈ v, x = 0) : normalize v = v := by
  have h0 : l2norm v = 0 := (l2norm_eq_zero_iff v).2 h
  simp [normalize, h0]

theorem l2norm_normalize {v : List ℝ} (h : l2norm v ≠ 0) : l2norm (normalize v) = 1 := by
  have hs : sumSq v ≠ 0 := fun h0 => h (by rw [l2norm, h0, Real.sqrt_zero])
  rw [normalize]
  simp only [if_neg h]
  rw [l2norm, sumSq_map_div]
  rw [show l2norm v * l2norm v = sumSq v from Real.mul_self_sqrt (sumSq_nonneg v)]
  rw [div_self hs, Real.sqrt_one]

theorem normalize_spec (v : List ℝ) :
    l2norm (normalize v) = 1 ∨ ((∀ x ∈ v, x = 0) ∧ normalize v = v) := by
  by_cases h : l2norm v = 0
  · have hz := (l2norm_eq_zero_iff v).1 h
    exact Or.inr ⟨hz, normalize_of_zero hz⟩
  · exact Or.inl (l2norm_normalize h)

theorem normalize_one : normalize [(1 : ℝ)] = [1] := by
  have h1 : sumSq [(1 : ℝ)] = 1 := by simp [sumSq, dot]
  have h : l2norm [(1 : ℝ)] = 1 := by rw [l2norm, h1, Real.sqrt_one]
  simp [normalize, h]

/-! Operational characterizations of the index mutations. -/

theorem add_item_eq (s : SearchService) (item_id : ℤ) (embedding : List ℝ) :
    s.add_item item_id embedding =
      if embedding.length = s.index.d then
        .ok ⟨s.embed_dim,
          ⟨s.index.d, s.index.entries ++ [(item_id, normalize embedding)]⟩⟩
      else .error .dimensionMismatch := by
  by_cases h : embedding.length = s.index.d
  · rw [if_pos h, SearchService.add_item, FaissIndex.add_with_ids, if_pos]
    · rfl
    · refine ⟨by simp [normalize_vectors], ?_⟩
      intro v hv
      simp only [normalize_vectors, List.map_cons, List.map_nil,
        List.mem_singleton] at hv
      subst hv
      rw [normalize_length]
      exact h
  · rw [if_neg h, SearchService.add_item, FaissIndex.add_with_ids, if_neg]
    intro ⟨_, hall⟩
    exact h (by
      have := hall (normalize embedding) (by simp [normalize_vectors])
      rwa [normalize_length] at this)

theorem add_item_ok {s s' : SearchService} {item_id : ℤ} {embedding : List ℝ}
    (h : s.add_item item_id embedding = .ok s') :
    embedding.length = s.index.d ∧
      s' = ⟨s.embed_dim,
        ⟨s.index.d, s.index.entries ++ [(item_id, normalize embedding)]⟩⟩ := by
  rw [add_item_eq] at h
  by_cases hd : embedding.length = s.index.d
  · rw [if_pos hd] at h
    exact ⟨hd, (Except.ok.inj h).symm⟩
  · rw [if_neg hd] at h
    exact absurd h (by simp)

theorem remove_item_entries (s : SearchService) (item_id : ℤ) :
    (s.remove_item item_id).index.entries
      = s.index.entries.filter (fun e => decide (e.1 ∉ [item_id])) := rfl

theorem remove_item_of_absent {s : SearchService} {item_id : ℤ}
    (h : ∀ e ∈ s.index.entries, e.1 ≠ item_id) :
    s.remove_item item_id = s := by
  obtain ⟨dim, d, entries⟩ := s
  simp only [SearchService.remove_item, FaissIndex.remove_ids,
    SearchService.mk.injEq, FaissIndex.mk.injEq, true_and]
  apply List.filter_eq_self.2
  intro e he
  simpa using h e he

theorem seqOption_length {l : List (Option ℤ)} {l' : List ℤ}
    (h : seqOption l = some l') : l'.length = l.length := by
  induction l generalizing l' with
  | nil =>
      simp only [seqOption] at h
      cases h
      rfl
  | cons o rest ih =>
      cases o with
      | none => simp [seqOption] at h
      | some i =>
          simp only [seqOption, Option.map_eq_some'] at h
          obtain ⟨l0, h0, rfl⟩ := h
          simp [ih h0]

theorem rebuild_entries (s : SearchService) (db : DatabaseService)
    (g : List String → Except Unit (List (List ℝ))) :
    (s.rebuild_index db g).index.entries = [] ∨
      ∃ (ids : List ℤ) (es : List (List ℝ)), (s.rebuild_index db g).index.entries
        = ids.zip (normalize_vectors es) := by
  simp only [SearchService.rebuild_index]
  by_cases h1 : db.get_all_items.isEmpty
  · rw [if_pos h1]
    exact Or.inl rfl
  · rw [if_neg h1]
    cases hg : g (db.get_all_items.map fun it => it.enhanced_content) with
    | error e => exact Or.inl rfl
    | ok embeddings =>
        cases hs : seqOption (db.get_all_items.map fun it => it.id) with
        | none => exact Or.inl rfl
        | some ids =>
            simp only [FaissIndex.add_with_ids]
            by_cases hc : (normalize_vectors embeddings).length = ids.length ∧
                ∀ v ∈ normalize_vectors embeddings, v.length = (emptyIndex s.embed_dim).d
            · rw [if_pos hc]
              exact Or.inr ⟨ids, embeddings, rfl⟩
            · rw [if_neg hc]
              exact Or.inl rfl

theorem seqOption_mem {l : List (Option ℤ)} {l' : List ℤ}
    (h : seqOption l = some l') : ∀ x : ℤ, x ∈ l' ↔ some x ∈ l := by
  induction l generalizing l' with
  | nil =>
      simp only [seqOption] at h
      cases h
      simp
  | cons o rest ih =>
      cases o with
      | none => simp [seqOption] at h
      | some i =>
          simp only [seqOption, Option.map_eq_some'] at h
          obtain ⟨l0, h0, rfl⟩ := h
          intro x
          simp [ih h0 x]

theorem filterMap_replicate_none {α β : Type} (f : α → Option β) (a : α)
    (n : ℕ) (h : f a = none) : (List.replicate n a).filterMap f = [] := by
  induction n with
  | zero => rfl
  | succ m ih => simp [List.replicate_succ, List.filterMap_cons, h, ih]

theorem hydrate_pad (db : DatabaseService) (t : ℝ) :
    hydrate db t (padScore, -1) = none := by
  simp [hydrate]

theorem hydrate_some {db : DatabaseService} {t : ℝ} {h : ℝ × ℤ}
    {r : SearchResult} (hr : hydrate db t h = some r) :
    h.2 ≠ -1 ∧ t ≤ h.1 ∧ db.get_item h.2 = some r.item ∧
      r.similarity_score = h.1 := by
  rw [hydrate] at hr
  by_cases hc : h.2 ≠ -1 ∧ t ≤ h.1
  · rw [if_pos hc] at hr
    cases hget : db.get_item h.2 with
    | none =>
        rw [hget] at hr
        exact absurd hr (by simp)
    | some item =>
        rw [hget] at hr
        have hr2 : (⟨item, h.1⟩ : SearchResult) = r := Option.some.inj hr
        have h3 : item = r.item := congrArg SearchResult.item hr2
        have h4 : r.similarity_score = h.1 :=
          (congrArg SearchResult.similarity_score hr2).symm
        exact ⟨hc.1, hc.2, by rw [h3], h4⟩
  · rw [if_neg hc] at hr
    exact absurd hr (by simp)

/-- The scored entries a query row induces on an index. -/
theorem search_similar_ok {s : SearchService} {q : List ℝ}
    {db : DatabaseService} {k : ℕ} {t : ℝ} {res : List SearchResult}
    (h : s.search_similar q db k t = .ok res) :
    res = [] ∨
      res = ((List.insertionSort scoreGE
          (s.index.entries.map (fun e => (dot (normalize q) e.2, e.1)))).take
            (k + 1)).filterMap (hydrate db t) := by
  rw [SearchService.search_similar] at h
  by_cases h0 : s.index.ntotal = 0
  · rw [if_pos h0] at h
    exact Or.inl (Except.ok.inj h).symm
  · rw [if_neg h0, FaissIndex.search] at h
    by_cases hq : (normalize q).length = s.index.d
    · rw [if_pos hq] at h
      refine Or.inr ?_
      have h2 := (Except.ok.inj h).symm
      rw [h2, List.filterMap_append,
        filterMap_replicate_none _ _ _ (hydrate_pad db t), List.append_nil]
    · rw [if_neg hq] at h
      exact absurd h (by simp)

theorem pairwise_filterMap_hydrate {db : DatabaseService} {t : ℝ}
    {l : List (ℝ × ℤ)} (h : l.Pairwise scoreGE) :
    (l.filterMap (hydrate db t)).Pairwise
      (fun a b => b.similarity_score ≤ a.similarity_score) := by
  induction l with
  | nil => simp
  | cons x xs ih =>
      rw [List.filterMap_cons]
      rcases List.pairwise_cons.1 h with ⟨hx, hxs⟩
      cases hf : hydrate db t x with
      | none => exact ih hxs
      | some r =>
          rw [List.pairwise_cons]
          refine ⟨?_, ih hxs⟩
          intro b hb
          obtain ⟨y, hy, hfy⟩ := List.mem_filterMap.1 hb
          have h1 := hydrate_some hf
          have h2 := hydrate_some hfy
          calc b.similarity_score = y.1 := h2.2.2.2
            _ ≤ x.1 := hx y hy
            _ = r.similarity_score := h1.2.2.2.symm

theorem search_hit_source {s : SearchService} {q : List ℝ}
    {db : DatabaseService} {k : ℕ} {t : ℝ} {res : List SearchResult}
    (h : s.search_similar q db k t = .ok res) :
    ∀ r ∈ res, ∃ i : ℤ, (∃ w, (i, w) ∈ s.index.entries) ∧
      db.get_item i = some r.item := by
  intro r hr
  rcases search_similar_ok h with rfl | hres
  · exact absurd hr (List.not_mem_nil r)
  · rw [hres] at hr
    obtain ⟨y, hy, hfy⟩ := List.mem_filterMap.1 hr
    have hmem := List.mem_of_mem_take hy
    have hperm := (List.perm_insertionSort scoreGE
      (s.index.entries.map (fun e => (dot (normalize q) e.2, e.1)))).mem_iff.1 hmem
    obtain ⟨e, he, hye⟩ := List.mem_map.1 hperm
    have hs := hydrate_some hfy
    refine ⟨e.1, ⟨e.2, he⟩, ?_⟩
    have hy2 : y.2 = e.1 := by rw [← hye]
    rw [← hy2]
    exact hs.2.2.1

theorem eval_svcThree :
    svcThree.search_similar [1] exampleDb 1 0
      = .ok [⟨itemN 1, 1⟩, ⟨itemN 2, 1⟩] := by
  rw [SearchService.search_similar,
    if_neg (show ¬ svcThree.index.ntotal = 0 by
      simp [svcThree, FaissIndex.ntotal]),
    normalize_one, FaissIndex.search,
    if_pos (show [(1 : ℝ)].length = svcThree.index.d from rfl)]
  norm_num [svcThree, exampleDb, itemN, scoreGE, List.insertionSort,
    List.orderedInsert, hydrate, DatabaseService.get_item, dot, List.find?,
    List.filterMap_cons]

theorem eval_svcFiveThree :
    svcFiveThree.search_similar [1] exampleDb 2 0
      = .ok [⟨itemN 5, 1⟩, ⟨itemN 3, 1⟩] := by
  rw [SearchService.search_similar,
    if_neg (show ¬ svcFiveThree.index.ntotal = 0 by
      simp [svcFiveThree, FaissIndex.ntotal]),
    normalize_one, FaissIndex.search,
    if_pos (show [(1 : ℝ)].length = svcFiveThree.index.d from rfl)]
  norm_num [svcFiveThree, exampleDb, itemN, scoreGE, List.insertionSort,
    List.orderedInsert, hydrate, DatabaseService.get_item, dot, List.find?,
    List.filterMap_cons, List.replicate]

/-! The claims. -/

/-- C7: loading the index from a missing or a corrupt/unreadable file
raises no exception (the loader is a total function in the model: every
`read_index` failure is caught by the bare `except: pass`) and yields an
empty index whose stats count is 0, for any dimension and any state of the
file-existence flag. -/
theorem c7_load_missing_or_corrupt (d : ℕ) (file_exists : Bool) :
    load_or_create_index d .missing = emptyIndex d ∧
    load_or_create_index d .corrupt = emptyIndex d ∧
    ((SearchService.construct d .missing).get_stats file_exists).total_items = 0 ∧
    ((SearchService.construct d .corrupt).get_stats file_exists).total_items = 0 :=
  ⟨rfl, rfl, rfl, rfl⟩

/-- C2 (amended): `add_item` appends.  A successful insert leaves the
prior entries untouched and adds one `(id, normalize v)` entry at the end,
so re-inserting a pre-existing id yields a second entry under that id
rather than replacing the first, and repeating an identical insert grows
the index by one entry each time instead of being idempotent. -/
theorem c2_add_item_appends (s s' : SearchService) (item_id : ℤ) (v : List ℝ)
    (h : s.add_item item_id v = .ok s') :
    s'.index.entries = s.index.entries ++ [(item_id, normalize v)] ∧
    s'.index.ntotal = s.index.ntotal + 1 := by
  obtain ⟨hd, rfl⟩ := add_item_ok h
  exact ⟨rfl, by simp [FaissIndex.ntotal]⟩

/-- Witness for C2 (amended): inserting id 1 into an index already holding
id 1 appends a duplicate entry. -/
theorem c2_add_item_appends_witness :
    (⟨1, ⟨1, [(1, [1]), (1, [1])]⟩⟩ : SearchService).index.entries
        = svcDup.index.entries ++ [(1, normalize [1])] ∧
    (⟨1, ⟨1, [(1, [1]), (1, [1])]⟩⟩ : SearchService).index.ntotal
        = svcDup.index.ntotal + 1 :=
  c2_add_item_appends svcDup _ 1 [1] (by
    rw [add_item_eq, if_pos (by simp [svcDup])]
    simp [svcDup, normalize_one])

/-- Counterexample to C2 as stated: the index `svcDup` already holds id 1
with vector `[1]`; repeating the identical `Insert(1, [1])` does not leave
the state unchanged — it yields an index with two entries under id 1. -/
theorem c2_counterexample :
    svcDup.add_item 1 [1] = .ok ⟨1, ⟨1, [(1, [1]), (1, [1])]⟩⟩ ∧
    (⟨1, ⟨1, [(1, [1]), (1, [1])]⟩⟩ : SearchService) ≠ svcDup := by
  constructor
  · rw [add_item_eq, if_pos (by simp [svcDup])]
    simp [svcDup, normalize_one]
  · intro h
    have h2 := congrArg (fun u : SearchService => u.index.entries.length) h
    simp [svcDup] at h2

/-- C3: the normalization invariant — every stored embedding has L2 norm 1
(exactly, in the real-number model of float arithmetic, hence within any
epsilon), except all-zero vectors, which are stored unmodified — is
preserved by `add_item` and holds for the index `rebuild_index` leaves in
place, and normalizing an all-zero vector is the identity. -/
theorem c3_norm_invariant (s s' : SearchService) (item_id : ℤ) (v z : List ℝ)
    (db : DatabaseService) (g : List String → Except Unit (List (List ℝ))) :
    (NormInvariant s → s.add_item item_id v = .ok s' → NormInvariant s') ∧
    NormInvariant (s.rebuild_index db g) ∧
    ((∀ x ∈ z, x = 0) → normalize z = z) := by
  refine ⟨?_, ?_, normalize_of_zero⟩
  · intro hs h
    obtain ⟨hd, rfl⟩ := add_item_ok h
    intro e he
    rcases List.mem_append.1 he with h1 | h2
    · exact hs e h1
    · have he2 : e = (item_id, normalize v) := List.mem_singleton.1 h2
      subst he2
      rcases normalize_spec v with h | ⟨hz, hnv⟩
      · exact Or.inl h
      · exact Or.inr (by simpa [hnv] using hz)
  · intro e he
    rcases rebuild_entries s db g with h0 | ⟨ids, es, hze⟩
    · rw [h0] at he
      exact absurd he (List.not_mem_nil e)
    · rw [hze] at he
      obtain ⟨e1, e2⟩ := e
      have hmem := (List.of_mem_zip he).2
      simp only [normalize_vectors, List.mem_map] at hmem
      obtain ⟨y, _, hy⟩ := hmem
      rcases normalize_spec y with h | ⟨hz', hny⟩
      · exact Or.inl (show l2norm e2 = 1 from hy ▸ h)
      · refine Or.inr ?_
        show ∀ x ∈ e2, x = 0
        rw [← hy, hny]
        exact hz'

/-- Witness for C3: the invariant holds vacuously on the fresh dimension-1
service, is preserved through a concrete insert, the rebuilt index (here
with a failing provider) satisfies it, and normalizing `[0, 0]` is the
identity. -/
theorem c3_norm_invariant_witness :
    NormInvariant svcOne ∧
    svcOne.add_item 7 [1] = .ok ⟨1, ⟨1, [(7, [1])]⟩⟩ ∧
    NormInvariant (⟨1, ⟨1, [(7, [1])]⟩⟩ : SearchService) ∧
    NormInvariant (svcOne.rebuild_index exampleDb (fun _ => .error ())) ∧
    normalize [(0 : ℝ), 0] = [0, 0] := by
  have hinv : NormInvariant svcOne := fun e he => absurd he (List.not_mem_nil e)
  have hadd : svcOne.add_item 7 [1] = .ok ⟨1, ⟨1, [(7, [1])]⟩⟩ := by
    rw [add_item_eq, if_pos (show [(1 : ℝ)].length = svcOne.index.d from rfl)]
    simp [svcOne, SearchService.construct, load_or_create_index, emptyIndex,
      normalize_one]
  refine ⟨hinv, hadd, ?_, ?_, ?_⟩
  · exact (c3_norm_invariant svcOne _ 7 [1] [0, 0] exampleDb
      (fun _ => .error ())).1 hinv hadd
  · exact (c3_norm_invariant svcOne svcOne 7 [1] [0, 0] exampleDb
      (fun _ => .error ())).2.1
  · exact (c3_norm_invariant svcOne svcOne 7 [1] [0, 0] exampleDb
      (fun _ => .error ())).2.2 (by simp)

/-- C4 (amended): `add_item` fails with a dimension mismatch whenever the
embedding's length differs from the index dimension (leaving the state
unchanged — the error carries no new state), and `search_similar` fails
the same way when the index is nonempty; but with an empty index
`search_similar` returns `[]` before any dimension check, so a mismatched
query against an empty index does not fail. -/
theorem c4_dimension_mismatch (s s0 : SearchService) (item_id : ℤ)
    (v q : List ℝ) (db : DatabaseService) (k : ℕ) (t : ℝ) :
    (v.length ≠ s.index.d → s.add_item item_id v = .error .dimensionMismatch) ∧
    (q.length ≠ s.index.d → s.index.ntotal ≠ 0 →
      s.search_similar q db k t = .error .dimensionMismatch) ∧
    (s0.index.ntotal = 0 → s0.search_similar q db k t = .ok []) := by
  refine ⟨?_, ?_, ?_⟩
  · intro h
    rw [add_item_eq, if_neg h]
  · intro hq hn
    rw [SearchService.search_similar, if_neg hn, FaissIndex.search,
      if_neg (by rwa [normalize_length])]
  · intro h0
    rw [SearchService.search_similar, if_pos h0]

/-- Witness for C4 (amended): a length-2 vector against the dimension-1
three-entry index fails both insert and query, and any query against the
fresh empty dimension-2 service returns the empty list. -/
theorem c4_dimension_mismatch_witness :
    svcThree.add_item 9 [1, 1] = .error .dimensionMismatch ∧
    svcThree.search_similar [1, 1] exampleDb 10 (6 / 10)
      = .error .dimensionMismatch ∧
    svcTwo.search_similar [1, 1] exampleDb 10 (6 / 10) = .ok [] :=
  ⟨(c4_dimension_mismatch svcThree svcTwo 9 [1, 1] [1, 1] exampleDb 10
      (6 / 10)).1 (by simp [svcThree]),
   (c4_dimension_mismatch svcThree svcTwo 9 [1, 1] [1, 1] exampleDb 10
      (6 / 10)).2.1 (by simp [svcThree]) (by simp [svcThree, FaissIndex.ntotal]),
   (c4_dimension_mismatch svcThree svcTwo 9 [1, 1] [1, 1] exampleDb 10
      (6 / 10)).2.2 rfl⟩

/-- Counterexample to C4 as stated: the supplied query `[1]` has length 1,
different from the configured dimension 2 of the fresh empty service, yet
`search_similar` does not fail with a dimension mismatch — the empty-index
short-circuit returns `Except.ok []` first. -/
theorem c4_counterexample :
    svcTwo.search_similar [1] exampleDb 10 (6 / 10) = .ok [] ∧
    [(1 : ℝ)].length ≠ svcTwo.index.d ∧
    [(1 : ℝ)].length ≠ svcTwo.embed_dim := by
  refine ⟨?_, ?_, ?_⟩
  · rw [SearchService.search_similar,
      if_pos (show svcTwo.index.ntotal = 0 from rfl)]
  · simp [svcTwo, SearchService.construct, load_or_create_index, emptyIndex]
  · simp [svcTwo, SearchService.construct]

/-- C1 (amended): a successful `search_similar` with `top_k = k` returns a
result list of length at most `k + 1` (not `k`: the code requests
`top_k + 1` slots from the index and never truncates the hydrated
results). -/
theorem c1_result_length (s : SearchService) (q : List ℝ) (db : DatabaseService)
    (k : ℕ) (t : ℝ) (res : List SearchResult)
    (h : s.search_similar q db k t = .ok res) : res.length ≤ k + 1 := by
  rcases search_similar_ok h with rfl | hres
  · simp
  · rw [hres]
    calc (((List.insertionSort scoreGE
          (s.index.entries.map (fun e => (dot (normalize q) e.2, e.1)))).take
            (k + 1)).filterMap (hydrate db t)).length
        ≤ ((List.insertionSort scoreGE
          (s.index.entries.map (fun e => (dot (normalize q) e.2, e.1)))).take
            (k + 1)).length := List.length_filterMap_le _ _
      _ ≤ k + 1 := List.length_take_le _ _

/-- Witness for C1 (amended): the concrete query against the three-entry
index with `top_k = 1` returns 2 ≤ 1 + 1 results. -/
theorem c1_result_length_witness :
    ([⟨itemN 1, 1⟩, ⟨itemN 2, 1⟩] : List SearchResult).length ≤ 1 + 1 :=
  c1_result_length svcThree [1] exampleDb 1 0 _ eval_svcThree

/-- Counterexample to C1 as stated: against the dimension-1 index holding
three unit entries, `search_similar` with `top_k = 1` and threshold 0
returns two results, so the result list's length exceeds `top_k`. -/
theorem c1_counterexample :
    svcThree.search_similar [1] exampleDb 1 0
        = .ok [⟨itemN 1, 1⟩, ⟨itemN 2, 1⟩] ∧
    ¬ ([⟨itemN 1, 1⟩, ⟨itemN 2, 1⟩] : List SearchResult).length ≤ 1 :=
  ⟨eval_svcThree, by norm_num⟩

/-- C5 (amended): the results of a successful `search_similar` are sorted
in non-increasing order of score, and the output is a deterministic
function of the index state and query; but entries with equal score keep
the index's insertion order — nothing re-orders them by ascending id. -/
theorem c5_results_sorted (s : SearchService) (q : List ℝ)
    (db : DatabaseService) (k : ℕ) (t : ℝ) (res : List SearchResult)
    (h : s.search_similar q db k t = .ok res) :
    res.Pairwise (fun a b => b.similarity_score ≤ a.similarity_score) := by
  rcases search_similar_ok h with rfl | hres
  · simp
  · rw [hres]
    exact pairwise_filterMap_hydrate
      ((List.sorted_insertionSort scoreGE _).sublist (List.take_sublist _ _))

/-- Witness for C5 (amended): the concrete two-result output is sorted by
non-increasing score. -/
theorem c5_results_sorted_witness :
    ([⟨itemN 1, 1⟩, ⟨itemN 2, 1⟩] : List SearchResult).Pairwise
      (fun a b => b.similarity_score ≤ a.similarity_score) :=
  c5_results_sorted svcThree [1] exampleDb 1 0 _ eval_svcThree

/-- Counterexample to C5 as stated: with unit entries inserted as id 5
then id 3, the query `[1]` returns both with equal score 1, ordered id 5
before id 3 — equal-score hits are not ordered by ascending id. -/
theorem c5_counterexample :
    svcFiveThree.search_similar [1] exampleDb 2 0
        = .ok [⟨itemN 5, 1⟩, ⟨itemN 3, 1⟩] ∧
    (⟨itemN 5, 1⟩ : SearchResult).similarity_score
        = (⟨itemN 3, 1⟩ : SearchResult).similarity_score ∧
    (⟨itemN 5, 1⟩ : SearchResult).item.id = some 5 ∧
    (⟨itemN 3, 1⟩ : SearchResult).item.id = some 3 ∧
    ¬ (5 : ℤ) ≤ 3 :=
  ⟨eval_svcFiveThree, rfl, rfl, rfl, by decide⟩

/-- C10: every result of a successful `search_similar` carries a record
fetched from the store under an id currently stored in the index — the
`-1` padding slots the underlying search emits when fewer than
`top_k + 1` entries exist are filtered out, and a result is only built
when `db.get_item` actually returns the record. -/
theorem c10_hits_from_index (s : SearchService) (q : List ℝ)
    (db : DatabaseService) (k : ℕ) (t : ℝ) (res : List SearchResult)
    (h : s.search_similar q db k t = .ok res) :
    ∀ r ∈ res, ∃ i : ℤ, (∃ w, (i, w) ∈ s.index.entries) ∧
      db.get_item i = some r.item :=
  search_hit_source h

/-- Witness for C10: the first concrete result's record is stored in the
database under an id present in the index. -/
theorem c10_hits_from_index_witness :
    ∃ i : ℤ, (∃ w, (i, w) ∈ svcThree.index.entries) ∧
      exampleDb.get_item i = some (⟨itemN 1, 1⟩ : SearchResult).item :=
  c10_hits_from_index svcThree [1] exampleDb 1 0 _ eval_svcThree _
    (List.mem_cons_self _ _)

/-- C8: `remove_item` always succeeds (it is a total function).  Removing
an absent id leaves the state unchanged; after removal no entry under that
id remains, and no subsequent query (any vector, any threshold, any store)
returns a record stored under that id. -/
theorem c8_remove (s : SearchService) (item_id : ℤ) :
    ((∀ e ∈ s.index.entries, e.1 ≠ item_id) → s.remove_item item_id = s) ∧
    (∀ w : List ℝ, (item_id, w) ∉ (s.remove_item item_id).index.entries) ∧
    (∀ (q : List ℝ) (db : DatabaseService) (k : ℕ) (t : ℝ)
        (res : List SearchResult),
      (s.remove_item item_id).search_similar q db k t = .ok res →
      ∀ r ∈ res, r.item.id ≠ some item_id) := by
  refine ⟨remove_item_of_absent, ?_, ?_⟩
  · intro w hmem
    rw [remove_item_entries] at hmem
    have := List.of_mem_filter hmem
    simp at this
  · intro q db k t res h r hr
    obtain ⟨i, ⟨w, hw⟩, hget⟩ := search_hit_source h r hr
    rw [remove_item_entries] at hw
    have hne : i ≠ item_id := by
      have := List.of_mem_filter hw
      simpa using this
    rw [DatabaseService.get_item] at hget
    have hfind := List.find?_some hget
    have hid : r.item.id = some i := by simpa using hfind
    rw [hid]
    intro hcon
    exact hne (Option.some.inj hcon)

/-- Witness for C8: removing the absent id 5 from the three-entry index is
a no-op, id 5 is not among the remaining entries, and the first result of
the subsequent concrete query does not carry id 5. -/
theorem c8_remove_witness :
    svcThree.remove_item 5 = svcThree ∧
    ((5 : ℤ), [(1 : ℝ)]) ∉ (svcThree.remove_item 5).index.entries ∧
    (⟨itemN 1, 1⟩ : SearchResult).item.id ≠ some 5 := by
  have heq : svcThree.remove_item 5 = svcThree :=
    (c8_remove svcThree 5).1 (by simp [svcThree])
  refine ⟨heq, (c8_remove svcThree 5).2.1 [1], ?_⟩
  exact (c8_remove svcThree 5).2.2 [1] exampleDb 1 0 _
    (by rw [heq]; exact eval_svcThree) _ (List.mem_cons_self _ _)

/-- C9: rebuilding against a store whose rows all carry ids, with a
provider that returns one correct-dimension embedding per record, yields
an index whose id set equals the store's id set. -/
theorem c9_rebuild_id_set (s : SearchService) (db : DatabaseService)
    (g : List String → Except Unit (List (List ℝ)))
    (es : List (List ℝ)) (ids : List ℤ)
    (hg : g (db.rows.map (fun it => it.enhanced_content)) = .ok es)
    (hlen : es.length = db.rows.length)
    (hdim : ∀ e ∈ es, e.length = s.embed_dim)
    (hids : seqOption (db.rows.map (fun it => it.id)) = some ids) :
    ∀ i : ℤ, ((∃ w, (i, w) ∈ (s.rebuild_index db g).index.entries) ↔
      some i ∈ db.rows.map (fun it => it.id)) := by
  intro i
  have hidlen : ids.length = db.rows.length := by
    have := seqOption_length hids
    simpa using this
  by_cases hrows : db.rows = []
  · constructor
    · rintro ⟨w, hw⟩
      have hempty : (s.rebuild_index db g).index.entries = [] := by
        simp only [SearchService.rebuild_index, DatabaseService.get_all_items]
        rw [if_pos (by simp [hrows])]
        rfl
      rw [hempty] at hw
      exact absurd hw (List.not_mem_nil _)
    · intro hmem
      rw [hrows] at hmem
      exact absurd hmem (List.not_mem_nil _)
  · have hnvlen : (normalize_vectors es).length = ids.length := by
      simp [normalize_vectors, hlen, hidlen]
    have hentries : (s.rebuild_index db g).index.entries
        = ids.zip (normalize_vectors es) := by
      simp only [SearchService.rebuild_index, DatabaseService.get_all_items]
      rw [if_neg (by simpa [List.isEmpty_iff] using hrows)]
      cases hg2 : g (db.rows.map fun it => it.enhanced_content) with
      | error e =>
          rw [hg2] at hg
          exact absurd hg (by simp)
      | ok embeddings =>
          have hee : es = embeddings := by
            rw [hg2] at hg
            exact (Except.ok.inj hg).symm
          subst hee
          cases hs2 : seqOption (db.rows.map fun it => it.id) with
          | none =>
              rw [hs2] at hids
              exact absurd hids (by simp)
          | some ids2 =>
              have hii : ids = ids2 := by
                rw [hs2] at hids
                exact (Option.some.inj hids).symm
              subst hii
              have hcond : (normalize_vectors es).length = ids.length ∧
                  ∀ v ∈ normalize_vectors es,
                    v.length = (emptyIndex s.embed_dim).d := by
                refine ⟨hnvlen, ?_⟩
                intro v hv
                simp only [normalize_vectors, List.mem_map] at hv
                obtain ⟨y, hy, rfl⟩ := hv
                rw [normalize_length]
                exact hdim y hy
              simp only [FaissIndex.add_with_ids]
              rw [if_pos hcond]
              simp [emptyIndex]
    have hmap : (ids.zip (normalize_vectors es)).map Prod.fst = ids :=
      List.map_fst_zip _ _ (le_of_eq hnvlen.symm)
    rw [hentries, ← (seqOption_mem hids i)]
    constructor
    · rintro ⟨w, hw⟩
      exact (List.of_mem_zip hw).1
    · intro hi
      rw [← hmap] at hi
      obtain ⟨p, hp, hp1⟩ := List.mem_map.1 hi
      obtain ⟨p1, p2⟩ := p
      cases hp1
      exact ⟨p2, hp⟩

/-- Witness for C9: a concrete rebuild of the dimension-1 service against
the four-row store with a provider returning four one-dimensional
embeddings; id 1 is in the rebuilt index's id set because it is among the
store's ids. -/
theorem c9_rebuild_id_set_witness :
    (∃ w, ((1 : ℤ), w) ∈ (svcOne.rebuild_index exampleDb
        (fun _ => .ok [[1], [1], [1], [1]])).index.entries) ↔
      some (1 : ℤ) ∈ exampleDb.rows.map (fun it => it.id) :=
  c9_rebuild_id_set svcOne exampleDb (fun _ => .ok [[1], [1], [1], [1]])
    [[1], [1], [1], [1]] [1, 2, 3, 5] rfl rfl
    (by
      intro e he
      simp only [svcOne, SearchService.construct]
      simp only [List.mem_cons, List.not_mem_nil, or_false] at he
      rcases he with rfl | rfl | rfl | rfl <;> rfl)
    rfl 1

/-- C6 (amended): when the provider is misconfigured (absent, or its
`configure()` failed), `generate_embeddings` returns `[]`, indexing the
record fails with an unsuccessful `AgentResponse` and both the store and
the index are left untouched; but when the provider is configured and the
endpoint is unreachable (every request raises), the provider silently
substitutes the dummy zero embedding, `create_item` reports success, and a
zero vector is inserted into the index under the new row's id. -/
theorem c6_embedding_failure (db : DatabaseService) (search : SearchService)
    (net : String → OllamaReply) (enhance : String → String)
    (ty : ItemType) (now : ℝ) (content : String) (p : OllamaProvider) :
    (agent_create_item db search none net enhance ty now content
        = ((db, search), false)) ∧
    (p.configured = false →
      agent_create_item db search (some p) net enhance ty now content
        = ((db, search), false)) ∧
    (p.configured = true → (∀ t, (net t).isRaises = true) →
      search.index.d = 768 →
      (agent_create_item db search (some p) net enhance ty now content).2
          = true ∧
      (agent_create_item db search (some p) net enhance ty now
          content).1.2.index.entries
        = search.index.entries ++ [(db.next_id, dummyEmbedding)]) := by
  refine ⟨rfl, ?_, ?_⟩
  · intro hp
    obtain ⟨c⟩ := p
    cases hp
    rfl
  · intro hp hnet hd
    have hgen : ai_generate_embeddings (some p) net [enhance content]
        = [dummyEmbedding] := by
      show ollama_generate_embeddings p net [enhance content] = [dummyEmbedding]
      rw [ollama_generate_embeddings, if_neg (by
        rw [hp]
        simp), if_pos (by
        simp only [List.any_cons, List.any_nil, Bool.or_false]
        exact hnet (enhance content))]
      rfl
    have hdlen : dummyEmbedding.length = 768 := List.length_replicate 768 0
    have hnorm : normalize dummyEmbedding = dummyEmbedding :=
      normalize_of_zero (fun x hx => List.eq_of_mem_replicate hx)
    have hadd : ∀ item_id : ℤ, search.add_item item_id dummyEmbedding
        = .ok ⟨search.embed_dim, ⟨search.index.d,
            search.index.entries ++ [(item_id, dummyEmbedding)]⟩⟩ := by
      intro item_id
      rw [add_item_eq, if_pos (by rw [hdlen]; exact hd.symm), hnorm]
    have hstep : agent_create_item db search (some p) net enhance ty now content
        = (((db.create_item ⟨none, now, content, enhance content, ty,
              false⟩).1,
            ⟨search.embed_dim, ⟨search.index.d, search.index.entries
              ++ [((db.create_item ⟨none, now, content, enhance content, ty,
                    false⟩).2, dummyEmbedding)]⟩⟩), true) := by
      simp only [agent_create_item, hgen, List.head?_cons, hadd]
    rw [hstep]
    exact ⟨rfl, rfl⟩

/-- Witness for C6 (amended): concrete instantiations of the three cases,
over the empty store and the fresh dimension-768 service. -/
theorem c6_embedding_failure_witness :
    agent_create_item ⟨[]⟩ svc768 none (fun _ => .raises) id .note 0 "x"
        = ((⟨[]⟩, svc768), false) ∧
    agent_create_item ⟨[]⟩ svc768 (some ⟨false⟩) (fun _ => .raises) id .note 0 "x"
        = ((⟨[]⟩, svc768), false) ∧
    (agent_create_item ⟨[]⟩ svc768 (some ⟨true⟩) (fun _ => .raises) id .note 0
        "x").2 = true ∧
    (agent_create_item ⟨[]⟩ svc768 (some ⟨true⟩) (fun _ => .raises) id .note 0
        "x").1.2.index.entries
      = svc768.index.entries
          ++ [((⟨[]⟩ : DatabaseService).next_id, dummyEmbedding)] := by
  have h := c6_embedding_failure ⟨[]⟩ svc768 (fun _ => .raises) id .note 0 "x"
    ⟨true⟩
  have h2 := c6_embedding_failure ⟨[]⟩ svc768 (fun _ => .raises) id .note 0 "x"
    ⟨false⟩
  have h3 := h.2.2 rfl (fun t => rfl) rfl
  exact ⟨h.1, h2.2.1 rfl, h3.1, h3.2⟩

/-- Counterexample to C6 as stated: with a configured provider whose
endpoint is unreachable (every request raises), indexing a record does not
fail — `create_item` reports success and the index gains an entry (the
dummy zero vector), instead of surfacing the failure and leaving the index
untouched. -/
theorem c6_counterexample :
    (agent_create_item ⟨[]⟩ svc768 (some ⟨true⟩) (fun _ => .raises) id .note 0
        "x").2 = true ∧
    (agent_create_item ⟨[]⟩ svc768 (some ⟨true⟩) (fun _ => .raises) id .note 0
        "x").1.2.index.ntotal = 1 := by
  have hgen : ai_generate_embeddings (some ⟨true⟩) (fun _ => .raises) ["x"]
      = [dummyEmbedding] := by
    show ollama_generate_embeddings ⟨true⟩ (fun _ => .raises) ["x"]
        = [dummyEmbedding]
    rw [ollama_generate_embeddings, if_neg (by simp),
      if_pos (by
        simp only [List.any_cons, List.any_nil, Bool.or_false]
        rfl)]
    rfl
  have hdlen : dummyEmbedding.length = 768 := List.length_replicate 768 0
  have hnorm : normalize dummyEmbedding = dummyEmbedding :=
    normalize_of_zero (fun x hx => List.eq_of_mem_replicate hx)
  have hadd : ∀ item_id : ℤ, svc768.add_item item_id dummyEmbedding
      = .ok ⟨svc768.embed_dim, ⟨svc768.index.d,
          svc768.index.entries ++ [(item_id, dummyEmbedding)]⟩⟩ := by
    intro item_id
    rw [add_item_eq,
      if_pos (show dummyEmbedding.length = svc768.index.d by rw [hdlen]; rfl),
      hnorm]
  have hstep : agent_create_item ⟨[]⟩ svc768 (some ⟨true⟩) (fun _ => .raises)
      id .note 0 "x"
      = ((((⟨[]⟩ : DatabaseService).create_item
            ⟨none, 0, "x", id "x", .note, false⟩).1,
          ⟨svc768.embed_dim, ⟨svc768.index.d, svc768.index.entries
            ++ [(((⟨[]⟩ : DatabaseService).create_item
                  ⟨none, 0, "x", id "x", .note, false⟩).2,
                dummyEmbedding)]⟩⟩), true) := by
    simp only [agent_create_item, id_eq, hgen, List.head?_cons, hadd]
  rw [hstep]
  exact ⟨rfl, rfl⟩

end AiNote
